import Mathlib

/-!
Verification of the DBTeleBot ingestion-and-publication pipeline.

Shallow embedding of the processing core of the repository:
`database.py` (the durable ledger), `ollama_client.py` (the analysis
gateway), `wiki_client.py` (the publication target) and the two
processing paths of `main.py` (the backfill loop inside
`TelegramUserClient.setup` and the live handler `handle_message`).

External collaborators (the chat platform, the HTTP transport of the
analysis service, the MediaWiki store, the SQLite storage) are modelled
as explicit state / oracle parameters at the interface boundary the
source exercises.
-/

set_option maxRecDepth 4096

namespace DBTeleBot

/-! ## JSON values

Model of the values `json.loads` produces in `ollama_client.py`.
Numbers are modelled as integers (no claim exercises fractional
payloads); object fields keep their textual order, with lookups taking
the last binding, as a Python dict built from duplicate keys would. -/

inductive Json where
  | null : Json
  | bool (b : Bool) : Json
  | num (n : Int) : Json
  | str (s : String) : Json
  | arr (elems : List Json) : Json
  | obj (fields : List (String × Json)) : Json

/-- Python truthiness of a JSON value (`if analysis:` in the source):
`None`, `False`, `0`, `""`, `[]` and the empty dict are falsy. -/
def jsonTruthy : Json → Bool
  | .null => false
  | .bool b => b
  | .num n => n != 0
  | .str s => s ≠ ""
  | .arr xs => !xs.isEmpty
  | .obj fs => !fs.isEmpty

/-- Lookup of a key in a JSON object field list, last binding winning,
as a Python `dict.get` over a dict built from these bindings. -/
def lookupField (fields : List (String × Json)) (key : String) : Option Json :=
  (fields.reverse.find? (fun p => p.1 = key)).map (fun p => p.2)

/-! ## A JSON parser (model of `json.loads`)

Fuel-based recursive-descent parser. It accepts the JSON fragment the
pipeline exchanges (objects, arrays, strings with the common escapes,
integers, booleans, null) and fails on anything else, as `json.loads`
raises `JSONDecodeError` there. Trailing non-whitespace after the value
is a failure, matching the "Extra data" error of `json.loads`. -/

def pyIsSpace (c : Char) : Bool :=
  c = ' ' || c = '\t' || c = '\n' || c = '\r' || c = '\x0b' || c = '\x0c'

def skipWs (cs : List Char) : List Char := cs.dropWhile pyIsSpace

/-- Parse the body of a JSON string literal after the opening quote,
returning the decoded characters and the input after the closing quote. -/
def parseStringBody : Nat → List Char → Option (List Char × List Char)
  | 0, _ => none
  | _, [] => none
  | fuel + 1, c :: rest =>
    if c = '"' then some ([], rest)
    else if c = '\\' then
      match rest with
      | [] => none
      | e :: rest' =>
        let dec : Option Char :=
          if e = '"' then some '"'
          else if e = '\\' then some '\\'
          else if e = '/' then some '/'
          else if e = 'n' then some '\n'
          else if e = 't' then some '\t'
          else if e = 'r' then some '\r'
          else if e = 'b' then some '\x08'
          else if e = 'f' then some '\x0c'
          else none
        match dec with
        | none => none
        | some d =>
          match parseStringBody fuel rest' with
          | none => none
          | some (cs, rem) => some (d :: cs, rem)
    else
      match parseStringBody fuel rest with
      | none => none
      | some (cs, rem) => some (c :: cs, rem)

/-- Parse a run of decimal digits. -/
def parseDigits : List Char → Option (Nat × List Char)
  | cs =>
    let ds := cs.takeWhile Char.isDigit
    if ds.isEmpty then none
    else some (ds.foldl (fun a c => a * 10 + (c.toNat - 48)) 0, cs.drop ds.length)

mutual

/-- Parse one JSON value from the head of the input. -/
def parseValue : Nat → List Char → Option (Json × List Char)
  | 0, _ => none
  | fuel + 1, cs =>
    match skipWs cs with
    | [] => none
    | c :: rest =>
      if c = 'n' then
        if rest.take 3 = ['u', 'l', 'l'] then some (.null, rest.drop 3) else none
      else if c = 't' then
        if rest.take 3 = ['r', 'u', 'e'] then some (.bool true, rest.drop 3) else none
      else if c = 'f' then
        if rest.take 4 = ['a', 'l', 's', 'e'] then some (.bool false, rest.drop 4) else none
      else if c = '"' then
        match parseStringBody (fuel + 1) rest with
        | none => none
        | some (body, rem) => some (.str (String.mk body), rem)
      else if c = '\x7b' then
        parseObjFields fuel rest true
      else if c = '[' then
        parseArrElems fuel rest true
      else if c = '-' then
        match parseDigits rest with
        | none => none
        | some (n, rem) => some (.num (-(n : Int)), rem)
      else if c.isDigit then
        match parseDigits (c :: rest) with
        | none => none
        | some (n, rem) => some (.num (n : Int), rem)
      else none

/-- Parse the fields of a JSON object after the opening brace; `first`
marks that no field has been consumed yet. -/
def parseObjFields : Nat → List Char → Bool → Option (Json × List Char)
  | 0, _, _ => none
  | fuel + 1, cs, first =>
    match skipWs cs with
    | [] => none
    | c :: rest =>
      if c = '\x7d' then some (.obj [], rest)
      else
        let afterSep : Option (List Char) :=
          if first then some (c :: rest)
          else if c = ',' then some rest
          else none
        match afterSep with
        | none => none
        | some cs' =>
          match skipWs cs' with
          | '"' :: rest' =>
            match parseStringBody (fuel + 1) rest' with
            | none => none
            | some (keyChars, rem) =>
              match skipWs rem with
              | ':' :: rem' =>
                match parseValue fuel rem' with
                | none => none
                | some (v, rem'') =>
                  match parseObjFields fuel rem'' false with
                  | some (.obj fs, rem''') =>
                    some (.obj ((String.mk keyChars, v) :: fs), rem''')
                  | _ => none
              | _ => none
          | _ => none

/-- Parse the elements of a JSON array after the opening bracket. -/
def parseArrElems : Nat → List Char → Bool → Option (Json × List Char)
  | 0, _, _ => none
  | fuel + 1, cs, first =>
    match skipWs cs with
    | [] => none
    | c :: rest =>
      if c = ']' then some (.arr [], rest)
      else
        let afterSep : Option (List Char) :=
          if first then some (c :: rest)
          else if c = ',' then some rest
          else none
        match afterSep with
        | none => none
        | some cs' =>
          match parseValue fuel cs' with
          | none => none
          | some (v, rem) =>
            match parseArrElems fuel rem false with
            | some (.arr vs, rem') => some (.arr (v :: vs), rem')
            | _ => none

end

/-- Model of `json.loads`: parse a complete JSON document; trailing
non-whitespace is a failure. -/
def jsonParse (s : String) : Option Json :=
  match parseValue (2 * s.length + 2) s.toList with
  | none => none
  | some (j, rest) => if skipWs rest = [] then some j else none

/-! ## Analysis Gateway (`ollama_client.py`)

`OllamaClient.analyze_text` posts one request to `/api/generate` and
digs a JSON object out of the `response` string of the reply. The HTTP
transport is an oracle mapping the request to a status code and the
`response` field of the reply body; the list of issued requests is
returned so that theorems can observe whether (and how often) the
network was called. -/

/-- A request to the analysis service: the `json=` payload of the POST
in `analyze_text` (`stream` is always `false` in the source). -/
structure OllamaRequest where
  model : String
  prompt : String
  stream : Bool
deriving DecidableEq

/-- The prompt `analyze_text` builds around the input text. -/
def buildPrompt (text : String) : String :=
  "Проанализируй следующий текст и верни результат в формате JSON:\n" ++
  "            \x7b\n" ++
  "                \"title\": \"Краткий заголовок (до 5 слов)\",\n" ++
  "                \"summary\": \"Краткое описание (1-2 предложения)\",\n" ++
  "                \"categories\": [\"категория1\", \"категория2\"],\n" ++
  "                \"tags\": [\"тег1\", \"тег2\"]\n" ++
  "            \x7d\n\n" ++
  "            Текст для анализа:\n            " ++ text ++ "\n\n" ++
  "            Верни ТОЛЬКО JSON, без дополнительного текста."

/-- Index of the first occurrence of a character (Python `str.find`). -/
def firstIdx (cs : List Char) (c : Char) : Option Nat :=
  match cs with
  | [] => none
  | x :: xs => if x = c then some 0 else (firstIdx xs c).map (· + 1)

/-- Index of the last occurrence of a character (Python `str.rfind`). -/
def lastIdx (cs : List Char) (c : Char) : Option Nat :=
  match lastIdx' cs.reverse c with
  | none => none
  | some i => some (cs.length - 1 - i)
where
  lastIdx' (cs : List Char) (c : Char) : Option Nat := firstIdx cs c

/-- Python `str.strip` on a character list. -/
def pyStrip (cs : List Char) : List Char :=
  ((cs.dropWhile pyIsSpace).reverse.dropWhile pyIsSpace).reverse

/-- The JSON-extraction heuristic of `analyze_text`: slice from the
first opening brace to the last closing brace, strip whitespace, strip
a leading three-backtick json fence and a trailing three-backtick
fence if present, and strip again. Returns `none` when the response
holds no opening or no closing brace. -/
def extract_json (response_text : String) : Option String :=
  match firstIdx response_text.toList '\x7b', lastIdx response_text.toList '\x7d' with
  | some js, some je =>
    let raw := (response_text.toList.drop js).take (je + 1 - js)
    let t1 := pyStrip raw
    let t2 := if ("```json".toList).isPrefixOf t1 then t1.drop 7 else t1
    let t3 := if ("```".toList).isSuffixOf t2 then t2.take (t2.length - 3) else t2
    some (String.mk (pyStrip t3))
  | _, _ => none

/-- The persistent configuration of `OllamaClient` (the base URL only
names the endpoint reached through the oracle, so the model name is
the one field the embedded behaviour depends on). -/
structure OllamaClient where
  model : String
deriving DecidableEq

/-- Model of `OllamaClient.analyze_text`. Builds the prompt, issues
exactly one POST through the transport `oracle` (there is no input
validation in the source), and on a 200 status extracts and parses the
embedded JSON. Every failure — non-200 status, no brace pair, JSON
parse error — yields `none`, as the source returns `None` after
logging; the catch-all `except` of the source corresponds to this
function being total. -/
def OllamaClient.analyze_text (c : OllamaClient) (text : String)
    (oracle : OllamaRequest → Nat × String) : List OllamaRequest × Option Json :=
  let req : OllamaRequest := ⟨c.model, buildPrompt text, false⟩
  let resp := oracle req
  if resp.1 ≠ 200 then ([req], none)
  else
    match extract_json resp.2 with
    | none => ([req], none)
    | some json_text =>
      match jsonParse json_text with
      | none => ([req], none)
      | some j => ([req], some j)

/-! ## Durable Ledger (`database.py`)

The `messages` table is modelled as a list of records in insertion
order; `date` is modelled by its rendered form, since the pipeline only
ever interpolates it into page content. The `analysis` column stores
the JSON value itself (the source stores its `json.dumps` serialization,
an injective encoding never re-parsed by the pipeline). -/

/-- One row of the `messages` table. -/
structure MsgRecord where
  message_id : Nat
  chat_id : Int
  user_id : Int
  text : String
  date : String
  is_processed : Bool
  wiki_page : Option String
  analysis : Option Json

/-- The `messages` table. -/
abbrev DB := List MsgRecord

/-- The `select(Message).filter_by(message_id=...)` lookup used by
`add_message` and `mark_message_as_processed`. -/
def db_find (db : DB) (mid : Nat) : Option MsgRecord :=
  db.find? (fun r => r.message_id = mid)

/-- The `json.dumps(analysis) if analysis else None` guard of
`add_message`: a falsy analysis value is stored as NULL. -/
def storedAnalysis (analysis : Option Json) : Option Json :=
  match analysis with
  | some j => if jsonTruthy j then some j else none
  | none => none

/-- Model of `Database.add_message`: return the existing record
unchanged if one with this `message_id` is present, otherwise insert a
new record, unprocessed and with a NULL `wiki_page`. -/
def add_message (db : DB) (mid : Nat) (cid uid : Int) (text date : String)
    (analysis : Option Json) : DB × MsgRecord :=
  match db_find db mid with
  | some r => (db, r)
  | none =>
    let r : MsgRecord := ⟨mid, cid, uid, text, date, false, none, storedAnalysis analysis⟩
    (db ++ [r], r)

/-- The per-record update of `mark_message_as_processed`: set the flag
and the page key together on the matching record. -/
def markFun (mid : Nat) (key : String) (r : MsgRecord) : MsgRecord :=
  if r.message_id = mid then { r with is_processed := true, wiki_page := some key } else r

/-- Model of `Database.mark_message_as_processed`: if a record with
this `message_id` exists, set `is_processed` and `wiki_page` and return
`true`; otherwise change nothing and return `false`. -/
def mark_message_as_processed (db : DB) (mid : Nat) (key : String) : DB × Bool :=
  match db_find db mid with
  | some _ => (db.map (markFun mid key), true)
  | none => (db, false)

/-- Model of `Database.get_processed_messages`: ids of the records with
`is_processed == True`. -/
def get_processed_messages (db : DB) : List Nat :=
  (db.filter (fun r => r.is_processed)).map (fun r => r.message_id)

/-! ## Publication Target (`wiki_client.py`)

The MediaWiki store is modelled as an association of page titles to
bodies, together with a log of the `page.save` calls performed, so
theorems can count document writes. -/

/-- The document store: current pages and the log of save operations
(title, saved body). -/
structure WikiState where
  pages : List (String × String)
  log : List (String × String)

/-- Current body of a page (`page.text()`), `none` when the page does
not exist (`page.exists` false). -/
def pageGet (w : WikiState) (title : String) : Option String :=
  ((w.pages).find? (fun p => p.1 = title)).map (fun p => p.2)

/-- Replacement of a page body on save. -/
def wikiSetFun (title body : String) (p : String × String) : String × String :=
  if p.1 = title then (title, body) else p

/-- One `page.save(content, summary)` call: replace or create the page
and log the write. -/
def savePage (w : WikiState) (title body : String) : WikiState :=
  { pages :=
      if ((w.pages).find? (fun p => p.1 = title)).isSome
      then w.pages.map (wikiSetFun title body)
      else w.pages ++ [(title, body)],
    log := w.log ++ [(title, body)] }

/-- Model of `WikiClient.create_page` with no categories (the only form
the pipeline calls): save the content as the page body. -/
def create_page (w : WikiState) (title content : String) : WikiState × Bool :=
  (savePage w title content, true)

/-- Model of `WikiClient.edit_page`: when the page does not exist,
degrade to `create_page`; otherwise save the old body, a blank line and
the new content when `append` is set, or just the new content
otherwise. -/
def edit_page (w : WikiState) (title content : String) (append : Bool := true) :
    WikiState × Bool :=
  match pageGet w title with
  | none => create_page w title content
  | some current =>
    let new_content := if append then current ++ "\n\n" ++ content else content
    (savePage w title new_content, true)

/-! ## Ingestion Pipeline (`main.py`)

Both processing paths — the backfill loop inside
`TelegramUserClient.setup` and the live handler `handle_message` — are
embedded over a combined state of ledger and document store. The
analysis transport is the same oracle parameter as in `analyze_text`;
the list of issued analysis requests is returned so theorems can state
whether the gateway was called. -/

/-- Ledger plus document store: the state the pipeline threads. -/
structure PipeState where
  db : DB
  wiki : WikiState

/-- Title selection of both paths:
`analysis.get('title', f"Сообщение_{message.id}")`. A present
string-valued `title` is used as is; an absent `title` yields the
fallback; a present non-string `title` is `none`, standing for the
exception the source raises downstream on such a value (unhashable page
key), which its catch-all handler turns into a per-message skip. -/
def getTitleVal (fields : List (String × Json)) (mid : Nat) : Option String :=
  match lookupField fields "title" with
  | some (Json.str s) => some s
  | none => some ("Сообщение_" ++ toString mid)
  | some _ => none

/-- The page content both paths render: header, message text and the
metadata block (date, author id, message id). -/
def buildContent (title text date : String) (senderId : Int) (mid : Nat) : String :=
  "## " ++ title ++ "\n\n" ++ text ++ "\n\n" ++
  "### Метаданные\n" ++
  "- Дата: " ++ date ++ "\n" ++
  "- Автор: " ++ toString senderId ++ "\n" ++
  "- ID сообщения: " ++ toString mid ++ "\n"

/-- A new-message event as the live handler sees it (`event.message`);
`out` is the self-echo flag `event.message.out`. -/
structure LiveEvent where
  message_id : Nat
  chat_id : Int
  sender_id : Int
  text : String
  date : String
  out : Bool

/-- Model of the live handler `handle_message` in
`TelegramUserClient.setup_handlers`: ignore own messages, store the
message (`add_message`), analyze the text, and on a truthy dict result
render and publish the page, then mark the message processed. Returns
the new state and the analysis requests issued. -/
def handle_message (c : OllamaClient) (st : PipeState) (ev : LiveEvent)
    (oracle : OllamaRequest → Nat × String) : PipeState × List OllamaRequest :=
  if ev.out then (st, [])
  else
    let db1 := (add_message st.db ev.message_id ev.chat_id ev.sender_id ev.text ev.date none).1
    let reqs := (c.analyze_text ev.text oracle).1
    match (c.analyze_text ev.text oracle).2 with
    | none => (⟨db1, st.wiki⟩, reqs)
    | some a =>
      if jsonTruthy a then
        match a with
        | Json.obj fields =>
          match getTitleVal fields ev.message_id with
          | none => (⟨db1, st.wiki⟩, reqs)
          | some title =>
            let content := buildContent title ev.text ev.date ev.sender_id ev.message_id
            let w := edit_page st.wiki title content true
            let db2 := if w.2 then (mark_message_as_processed db1 ev.message_id title).1 else db1
            (⟨db2, w.1⟩, reqs)
        | _ => (⟨db1, st.wiki⟩, reqs)
      else (⟨db1, st.wiki⟩, reqs)

/-- A message as the backfill scanner receives it from the platform. -/
structure BMsg where
  id : Nat
  chat_id : Int
  sender_id : Int
  text : String
  date : String
deriving DecidableEq

/-- One iteration of the inner `for message in messages` loop of the
backfill pass: skip empty-text messages, skip ids in the processed set
fetched for the page, otherwise analyze, publish, mark processed on
publication success, and only then store the message via `add_message`
(with the analysis payload). Returns the new state and the analysis
requests issued. -/
def process_backfill_message (c : OllamaClient) (st : PipeState) (processed : List Nat)
    (m : BMsg) (oracle : OllamaRequest → Nat × String) : PipeState × List OllamaRequest :=
  if m.text = "" then (st, [])
  else if m.id ∈ processed then (st, [])
  else
    let reqs := (c.analyze_text m.text oracle).1
    match (c.analyze_text m.text oracle).2 with
    | none => (st, reqs)
    | some a =>
      if jsonTruthy a then
        match a with
        | Json.obj fields =>
          match getTitleVal fields m.id with
          | none => (st, reqs)
          | some title =>
            let content := buildContent title m.text m.date m.sender_id m.id
            let w := edit_page st.wiki title content true
            let db1 := if w.2 then (mark_message_as_processed st.db m.id title).1 else st.db
            let db2 := (add_message db1 m.id m.chat_id m.sender_id m.text m.date (some a)).1
            (⟨db2, w.1⟩, reqs)
        | _ => (st, reqs)
      else (st, reqs)

/-- One page of the backfill pass: fetch the processed-id set once,
then process the page's messages in order. -/
def backfill_page (c : OllamaClient) (st : PipeState) (msgs : List BMsg)
    (oracle : OllamaRequest → Nat × String) : PipeState :=
  let processed := get_processed_messages st.db
  msgs.foldl (fun s m => (process_backfill_message c s processed m oracle).1) st

/-- Modelled from the spec (§6 chat platform collaborator):
`get_messages(limit=limit, offset_id=offsetId)` over a conversation held
newest-first, returning up to `limit` messages strictly older than
`offsetId`, with `offsetId = 0` meaning "from the most recent". -/
def conv_get_messages (conv : List BMsg) (limit offsetId : Nat) : List BMsg :=
  (if offsetId = 0 then conv else conv.filter (fun m => m.id < offsetId)).take limit

/-- Id of the last (oldest) message of a page — `messages[-1].id`. -/
def lastId (msgs : List BMsg) : Nat := (msgs.map BMsg.id).getLastD 0

/-- The outer `while True` backfill loop of `TelegramUserClient.setup`:
request a page of 100 messages at the cursor, stop when the page is
empty, otherwise process the page, move the cursor to the id of the
page's last message, and continue. Fuel bounds the iteration count;
the second component is the trace of fetched pages (as id lists,
including the final empty fetch). -/
def backfill_loop (c : OllamaClient) (oracle : OllamaRequest → Nat × String) :
    Nat → List BMsg → PipeState → Nat → PipeState × List (List Nat)
  | 0, _, st, _ => (st, [])
  | fuel + 1, conv, st, offsetId =>
    let page := conv_get_messages conv 100 offsetId
    if page = [] then (st, [[]])
    else
      let st1 := backfill_page c st page oracle
      let next := backfill_loop c oracle fuel conv st1 (lastId page)
      (next.1, page.map BMsg.id :: next.2)

/-! ## Helper lemmas -/

theorem markFun_message_id (mid : Nat) (key : String) (r : MsgRecord) :
    (markFun mid key r).message_id = r.message_id := by
  unfold markFun; split <;> rfl

theorem markFun_idem (mid : Nat) (key : String) (r : MsgRecord) :
    markFun mid key (markFun mid key r) = markFun mid key r := by
  unfold markFun
  by_cases h : r.message_id = mid
  · simp [h]
  · simp [h]

theorem db_find_map_markFun (db : DB) (mid : Nat) (key : String) :
    db_find (db.map (markFun mid key)) mid = (db_find db mid).map (markFun mid key) := by
  induction db with
  | nil => rfl
  | cons r t ih =>
    simp only [db_find, List.map_cons, List.find?_cons] at *
    rw [markFun_message_id]
    by_cases h : r.message_id = mid
    · simp [h]
    · simp only [decide_eq_false h]
      exact ih

theorem mark_of_none {db : DB} {mid : Nat} (key : String)
    (h : db_find db mid = none) :
    mark_message_as_processed db mid key = (db, false) := by
  unfold mark_message_as_processed
  rw [h]

theorem mark_of_some {db : DB} {mid : Nat} {r : MsgRecord} (key : String)
    (h : db_find db mid = some r) :
    mark_message_as_processed db mid key = (db.map (markFun mid key), true) := by
  unfold mark_message_as_processed
  rw [h]

theorem add_of_none {db : DB} {mid : Nat} (cid uid : Int) (text date : String)
    (analysis : Option Json) (h : db_find db mid = none) :
    add_message db mid cid uid text date analysis
      = (db ++ [⟨mid, cid, uid, text, date, false, none, storedAnalysis analysis⟩],
         ⟨mid, cid, uid, text, date, false, none, storedAnalysis analysis⟩) := by
  unfold add_message
  rw [h]

theorem add_of_some {db : DB} {mid : Nat} {r : MsgRecord} (cid uid : Int)
    (text date : String) (analysis : Option Json) (h : db_find db mid = some r) :
    add_message db mid cid uid text date analysis = (db, r) := by
  unfold add_message
  rw [h]

theorem db_find_none_iff {db : DB} {mid : Nat} :
    db_find db mid = none ↔ ∀ r ∈ db, r.message_id ≠ mid := by
  unfold db_find
  rw [List.find?_eq_none]
  simp

theorem db_find_append_of_none {db : DB} {mid : Nat} (l : DB)
    (h : db_find db mid = none) :
    db_find (db ++ l) mid = db_find l mid := by
  unfold db_find at *
  rw [List.find?_append, h]
  rfl

theorem not_mem_processed_of_find_none {db : DB} {mid : Nat}
    (h : db_find db mid = none) :
    mid ∉ get_processed_messages db := by
  intro hmem
  rw [db_find_none_iff] at h
  unfold get_processed_messages at hmem
  obtain ⟨r, hr, hid⟩ := List.mem_map.mp hmem
  exact h r (List.mem_of_mem_filter hr) hid

theorem get_processed_append (db l : DB) :
    get_processed_messages (db ++ l)
      = get_processed_messages db ++ get_processed_messages l := by
  unfold get_processed_messages
  rw [List.filter_append, List.map_append]

theorem edit_page_snd (w : WikiState) (title content : String) (append : Bool) :
    (edit_page w title content append).2 = true := by
  unfold edit_page create_page
  cases pageGet w title <;> rfl

theorem edit_page_log (w : WikiState) (title content : String) (append : Bool) :
    ∃ b, (edit_page w title content append).1.log = w.log ++ [(title, b)] := by
  unfold edit_page create_page savePage
  cases pageGet w title
  · exact ⟨content, rfl⟩
  · exact ⟨_, rfl⟩

theorem edit_page_log_length (w : WikiState) (title content : String) (append : Bool) :
    (edit_page w title content append).1.log.length = w.log.length + 1 := by
  obtain ⟨b, hb⟩ := edit_page_log w title content append
  rw [hb, List.length_append]
  rfl

theorem wikiSetFun_fst (title body : String) (p : String × String) :
    (wikiSetFun title body p).1 = p.1 := by
  unfold wikiSetFun
  split
  · rename_i h; exact h.symm
  · rfl

theorem find?_map_wikiSetFun (ps : List (String × String)) (title body : String) :
    (ps.map (wikiSetFun title body)).find? (fun p => p.1 = title)
      = (ps.find? (fun p => p.1 = title)).map (wikiSetFun title body) := by
  induction ps with
  | nil => rfl
  | cons p t ih =>
    simp only [List.map_cons, List.find?_cons]
    rw [wikiSetFun_fst]
    by_cases h : p.1 = title
    · simp [h]
    · simp only [decide_eq_false h]
      exact ih

theorem pageGet_savePage (w : WikiState) (title body : String) :
    pageGet (savePage w title body) title = some body := by
  unfold savePage pageGet
  by_cases h : ((w.pages).find? (fun p => p.1 = title)).isSome
  · rw [if_pos h]
    rw [find?_map_wikiSetFun]
    obtain ⟨p, hp⟩ := Option.isSome_iff_exists.mp h
    rw [hp]
    have hfst : p.1 = title := by
      have := List.find?_some hp
      simpa using this
    show some ((wikiSetFun title body p).2) = some body
    unfold wikiSetFun
    rw [if_pos hfst]
  · rw [if_neg h]
    rw [List.find?_append]
    rw [Option.not_isSome_iff_eq_none.mp h, Option.none_or]
    rw [List.find?_cons]
    have hd : decide (((title, body) : String × String).1 = title) = true := by simp
    rw [hd]
    rfl

theorem firstIdx_eq_none {cs : List Char} {c : Char} (h : c ∉ cs) :
    firstIdx cs c = none := by
  induction cs with
  | nil => rfl
  | cons x xs ih =>
    have hx : ¬ x = c := fun he => h (he ▸ List.mem_cons_self x xs)
    have hxs : c ∉ xs := fun hm => h (List.mem_cons_of_mem x hm)
    unfold firstIdx
    rw [if_neg hx, ih hxs]
    rfl

theorem lastIdx_eq_none {cs : List Char} {c : Char} (h : c ∉ cs) :
    lastIdx cs c = none := by
  have hr : c ∉ cs.reverse := fun hm => h (List.mem_reverse.mp hm)
  unfold lastIdx lastIdx.lastIdx'
  rw [firstIdx_eq_none hr]

theorem extract_json_no_open {s : String} (h : '\x7b' ∉ s.toList) :
    extract_json s = none := by
  unfold extract_json
  rw [firstIdx_eq_none h]

theorem extract_json_no_close {s : String} (h : '\x7d' ∉ s.toList) :
    extract_json s = none := by
  unfold extract_json
  rw [lastIdx_eq_none h]
  cases firstIdx s.toList '\x7b' <;> rfl

theorem analyze_none_of_bad_payload {c : OllamaClient} {s : String}
    (h : (extract_json s).bind jsonParse = none) (text : String) :
    (c.analyze_text text (fun _ => (200, s))).2 = none := by
  unfold OllamaClient.analyze_text
  rw [if_neg (fun hc => hc rfl)]
  cases he : extract_json s with
  | none => rfl
  | some t =>
    rw [he] at h
    have hp : jsonParse t = none := h
    dsimp only
    rw [hp]

/-! ## Claim theorems -/

/-- C6: `analyze_text` extracts the substring from the first opening
brace to the last closing brace of the 200-status response, strips
fences and whitespace and parses it, so a prose-wrapped body such as
the one below parses to the embedded object; a response with no
opening brace or no closing brace, a non-200 transport status, or a
JSON parse failure of the extracted text all yield the failure value
`none`, and the function is total on every input (nothing escapes the
boundary). -/
theorem C6_gateway_extraction (c : OllamaClient) :
    (((OllamaClient.mk "m").analyze_text "t"
        (fun _ => (200, "Here you go: \x7b\"title\":\"X\"\x7d enjoy!"))).2
        = some (.obj [("title", .str "X")]))
    ∧ (∀ s : String, '\x7b' ∉ s.toList → ∀ text,
        (c.analyze_text text (fun _ => (200, s))).2 = none)
    ∧ (∀ s : String, '\x7d' ∉ s.toList → ∀ text,
        (c.analyze_text text (fun _ => (200, s))).2 = none)
    ∧ (∀ (status : Nat) (s : String), status ≠ 200 → ∀ text,
        (c.analyze_text text (fun _ => (status, s))).2 = none)
    ∧ (∀ s : String, (extract_json s).bind jsonParse = none → ∀ text,
        (c.analyze_text text (fun _ => (200, s))).2 = none)
    ∧ (∀ (text : String) (oracle : OllamaRequest → Nat × String),
        (c.analyze_text text oracle).2 = none
        ∨ ∃ j, (c.analyze_text text oracle).2 = some j) := by
  refine ⟨by rfl, ?_, ?_, ?_, ?_, ?_⟩
  · intro s h text
    exact analyze_none_of_bad_payload (by rw [extract_json_no_open h]; rfl) text
  · intro s h text
    exact analyze_none_of_bad_payload (by rw [extract_json_no_close h]; rfl) text
  · intro status s h text
    unfold OllamaClient.analyze_text
    rw [if_pos h]
  · intro s h text
    exact analyze_none_of_bad_payload h text
  · intro text oracle
    cases hres : (c.analyze_text text oracle).2 with
    | none => exact Or.inl rfl
    | some j => exact Or.inr ⟨j, rfl⟩

/-- C6 witness: the failure branches of `C6_gateway_extraction`
evaluated at concrete inputs. -/
theorem C6_gateway_extraction_witness :
    (((OllamaClient.mk "m").analyze_text "t" (fun _ => (200, "no json here"))).2 = none)
    ∧ (((OllamaClient.mk "m").analyze_text "t" (fun _ => (404, "x"))).2 = none)
    ∧ (((OllamaClient.mk "m").analyze_text "t" (fun _ => (200, "oops \x7b not json \x7d"))).2
        = none) :=
  ⟨(C6_gateway_extraction (OllamaClient.mk "m")).2.1 "no json here" (by decide) "t",
   (C6_gateway_extraction (OllamaClient.mk "m")).2.2.2.1 404 "x" (by decide) "t",
   (C6_gateway_extraction (OllamaClient.mk "m")).2.2.2.2.1 "oops \x7b not json \x7d"
     (by rfl) "t"⟩

/-- C9 counterexample: `analyze_text` performs no validation of its
input: on the empty text and on a whitespace-only text it still issues
the POST to the analysis service (the claim said such inputs are
rejected with a validation error before any network call). -/
theorem C9_cex_empty_text_is_sent :
    (((OllamaClient.mk "model").analyze_text "" (fun _ => (200, ""))).1
        = [⟨"model", buildPrompt "", false⟩])
    ∧ (((OllamaClient.mk "model").analyze_text "   " (fun _ => (200, ""))).1
        = [⟨"model", buildPrompt "   ", false⟩]) :=
  ⟨rfl, rfl⟩

/-- C9 (amended): `analyze_text` validates nothing: for every input
text, including the empty and the whitespace-only ones, it issues
exactly one request to the analysis service, carrying the text inside
the prompt. -/
theorem C9_no_input_validation (c : OllamaClient) (text : String)
    (oracle : OllamaRequest → Nat × String) :
    (c.analyze_text text oracle).1 = [⟨c.model, buildPrompt text, false⟩] := by
  simp only [OllamaClient.analyze_text]
  split
  · rfl
  · split
    · rfl
    · split <;> rfl

/-- C5 counterexample: for an analysis result with no `title` field the
pipeline's title is not the string "Message_" followed by the message
id — the source's fallback literal is the Russian "Сообщение_". -/
theorem C5_cex_fallback_prefix :
    getTitleVal [("summary", Json.str "s")] 42 ≠ some ("Message_" ++ toString 42)
    ∧ getTitleVal [("summary", Json.str "s")] 42 = some ("Сообщение_" ++ toString 42) := by
  constructor
  · decide
  · rfl

/-- C5 (amended): for every analysis object that omits the `title`
field, the publication title is exactly "Сообщение_" followed by the
message id, and this is the title both the live handler and the
backfill pass publish under (shown on a run of each). -/
theorem C5_fallback_title :
    (∀ (fields : List (String × Json)) (mid : Nat),
      lookupField fields "title" = none →
      getTitleVal fields mid = some ("Сообщение_" ++ toString mid))
    ∧ ((handle_message (OllamaClient.mk "m") ⟨[], ⟨[], []⟩⟩ ⟨5, 0, 0, "hi", "d", false⟩
          (fun _ => (200, "\x7b\"summary\": \"s\"\x7d"))).1.wiki.log.map Prod.fst
        = ["Сообщение_5"])
    ∧ ((process_backfill_message (OllamaClient.mk "m") ⟨[], ⟨[], []⟩⟩ [] ⟨5, 0, 0, "hi", "d"⟩
          (fun _ => (200, "\x7b\"summary\": \"s\"\x7d"))).1.wiki.log.map Prod.fst
        = ["Сообщение_5"]) := by
  refine ⟨?_, rfl, rfl⟩
  intro fields mid h
  unfold getTitleVal
  rw [h]

/-- C5 witness: the fallback-title branch of `C5_fallback_title`
evaluated on a concrete analysis object without a `title` field. -/
theorem C5_fallback_title_witness :
    getTitleVal [("summary", Json.str "s")] 7 = some ("Сообщение_" ++ toString 7) :=
  C5_fallback_title.1 [("summary", Json.str "s")] 7 rfl

/-- C4 counterexample: on a record that is already processed with key
"A", `mark_message_as_processed` with the different key "B" is not a
returning-false no-op: it returns `true` and overwrites the stored key. -/
theorem C4_cex_overwrites_different_key :
    ((mark_message_as_processed [⟨1, 0, 0, "t", "d", true, some "A", none⟩] 1 "B").2 = true)
    ∧ ((mark_message_as_processed [⟨1, 0, 0, "t", "d", true, some "A", none⟩] 1 "B").1.map
          MsgRecord.wiki_page = [some "B"])
    ∧ (([(⟨1, 0, 0, "t", "d", true, some "A", none⟩ : MsgRecord)]).map MsgRecord.wiki_page
        = [some "A"]) :=
  ⟨rfl, rfl, rfl⟩

/-- Effect of a successful `mark_message_as_processed` on the marked
record: the flag and the key are set together. -/
theorem db_find_mark_some {db : DB} {mid : Nat} {r : MsgRecord} (key : String)
    (h : db_find db mid = some r) :
    db_find (mark_message_as_processed db mid key).1 mid
      = some { r with is_processed := true, wiki_page := some key } := by
  rw [mark_of_some key h]
  show db_find (db.map (markFun mid key)) mid = _
  rw [db_find_map_markFun, h]
  show some (markFun mid key r) = _
  unfold markFun
  rw [if_pos (by simpa using List.find?_some h)]

/-- C4 (amended): `mark_message_as_processed` returns `false` and
changes nothing exactly when the record is absent; whenever the record
exists — even already processed with a different key — it returns
`true` and sets the flag and the key; calling it twice with the same
key is idempotent (the second call returns the same pair). -/
theorem C4_mark_processed (db : DB) (mid : Nat) (key : String) :
    (db_find db mid = none → mark_message_as_processed db mid key = (db, false))
    ∧ (∀ r, db_find db mid = some r →
        (mark_message_as_processed db mid key).2 = true
        ∧ db_find (mark_message_as_processed db mid key).1 mid
            = some { r with is_processed := true, wiki_page := some key })
    ∧ mark_message_as_processed (mark_message_as_processed db mid key).1 mid key
        = mark_message_as_processed db mid key := by
  refine ⟨fun h => mark_of_none key h, fun r h => ?_, ?_⟩
  · refine ⟨?_, db_find_mark_some key h⟩
    rw [mark_of_some key h]
  · cases hf : db_find db mid with
    | none =>
      rw [mark_of_none key hf]
      exact mark_of_none key hf
    | some r =>
      rw [mark_of_some key hf]
      have hm : db_find (db.map (markFun mid key)) mid = some (markFun mid key r) := by
        rw [db_find_map_markFun, hf]
        rfl
      rw [mark_of_some key hm]
      have hmm : (db.map (markFun mid key)).map (markFun mid key)
          = db.map (markFun mid key) := by
        rw [List.map_map]
        exact List.map_congr_left (fun a _ => markFun_idem mid key a)
      rw [hmm]

/-- C4 witness: `C4_mark_processed` evaluated on a one-record ledger:
the absent-record no-op, the set-flag-and-key update, and the same-key
idempotence. -/
theorem C4_mark_processed_witness :
    (mark_message_as_processed [] 3 "K" = ([], false))
    ∧ ((mark_message_as_processed [⟨3, 0, 0, "t", "d", false, none, none⟩] 3 "K").2 = true)
    ∧ (mark_message_as_processed
         (mark_message_as_processed [⟨3, 0, 0, "t", "d", false, none, none⟩] 3 "K").1 3 "K"
        = mark_message_as_processed [⟨3, 0, 0, "t", "d", false, none, none⟩] 3 "K") :=
  ⟨(C4_mark_processed [] 3 "K").1 rfl,
   ((C4_mark_processed [⟨3, 0, 0, "t", "d", false, none, none⟩] 3 "K").2.1
      ⟨3, 0, 0, "t", "d", false, none, none⟩ rfl).1,
   (C4_mark_processed [⟨3, 0, 0, "t", "d", false, none, none⟩] 3 "K").2.2⟩

/-- C7: writing through `edit_page` in append mode to an existing page
stores the old body, a blank line, and the new content; to a
nonexistent page it stores exactly the new content (append degrades to
creation); both succeed. -/
theorem C7_append_semantics (w : WikiState) (title content : String) :
    (pageGet w title = none →
      (edit_page w title content true).2 = true
      ∧ pageGet (edit_page w title content true).1 title = some content)
    ∧ (∀ old, pageGet w title = some old →
      (edit_page w title content true).2 = true
      ∧ pageGet (edit_page w title content true).1 title
          = some (old ++ "\n\n" ++ content)) := by
  constructor
  · intro h
    unfold edit_page
    rw [h]
    exact ⟨rfl, pageGet_savePage w title content⟩
  · intro old h
    unfold edit_page
    rw [h]
    exact ⟨rfl, pageGet_savePage w title (old ++ "\n\n" ++ content)⟩

/-- C7 witness: `C7_append_semantics` on a store holding one page:
appending to the existing page and to a missing page. -/
theorem C7_append_semantics_witness :
    (pageGet (edit_page ⟨[("P", "old")], []⟩ "P" "new" true).1 "P"
        = some ("old" ++ "\n\n" ++ "new"))
    ∧ (pageGet (edit_page ⟨[("P", "old")], []⟩ "Q" "new" true).1 "Q" = some "new") :=
  ⟨((C7_append_semantics ⟨[("P", "old")], []⟩ "P" "new").2 "old" rfl).2,
   ((C7_append_semantics ⟨[("P", "old")], []⟩ "Q" "new").1 rfl).2⟩

/-- The Ledger invariant of the spec: at most one record per
`message_id`, and `wiki_page` is non-null exactly when `is_processed`
is set. -/
def LedgerInv (db : DB) : Prop :=
  (db.map MsgRecord.message_id).Nodup
  ∧ ∀ r ∈ db, r.wiki_page.isSome = r.is_processed

/-- C10: `add_message` and `mark_message_as_processed` preserve the
Ledger invariant; creation stores an unprocessed record with a null
key, and marking sets the flag and the key together. -/
theorem C10_ledger_invariant (db : DB) (mid : Nat) (cid uid : Int)
    (text date key : String) (analysis : Option Json) (hinv : LedgerInv db) :
    LedgerInv (add_message db mid cid uid text date analysis).1
    ∧ LedgerInv (mark_message_as_processed db mid key).1
    ∧ (db_find db mid = none →
        (add_message db mid cid uid text date analysis).1
          = db ++ [⟨mid, cid, uid, text, date, false, none, storedAnalysis analysis⟩])
    ∧ (∀ r, db_find db mid = some r →
        db_find (mark_message_as_processed db mid key).1 mid
          = some { r with is_processed := true, wiki_page := some key }) := by
  obtain ⟨hnd, hiff⟩ := hinv
  refine ⟨?_, ?_, ?_, fun r h => db_find_mark_some key h⟩
  · cases hf : db_find db mid with
    | some r =>
      rw [add_of_some cid uid text date analysis hf]
      exact ⟨hnd, hiff⟩
    | none =>
      rw [add_of_none cid uid text date analysis hf]
      constructor
      · rw [List.map_append]
        rw [List.nodup_append]
        refine ⟨hnd, List.nodup_singleton mid, ?_⟩
        intro x hx hx'
        have hxm : x = mid := by simpa using hx'
        obtain ⟨r', hr', hid⟩ := List.mem_map.mp hx
        exact (db_find_none_iff.mp hf r' hr') (hxm ▸ hid)
      · intro r hr
        rcases List.mem_append.mp hr with h1 | h2
        · exact hiff r h1
        · have : r = ⟨mid, cid, uid, text, date, false, none, storedAnalysis analysis⟩ := by
            simpa using h2
          rw [this]
          rfl
  · cases hf : db_find db mid with
    | none =>
      rw [mark_of_none key hf]
      exact ⟨hnd, hiff⟩
    | some r =>
      rw [mark_of_some key hf]
      constructor
      · show ((db.map (markFun mid key)).map MsgRecord.message_id).Nodup
        rw [List.map_map]
        have : db.map (MsgRecord.message_id ∘ markFun mid key)
            = db.map MsgRecord.message_id :=
          List.map_congr_left (fun a _ => markFun_message_id mid key a)
        rw [this]
        exact hnd
      · intro r' hr'
        obtain ⟨r0, hr0, hr0e⟩ := List.mem_map.mp hr'
        rw [← hr0e]
        unfold markFun
        split
        · rfl
        · exact hiff r0 hr0
  · intro hf
    rw [add_of_none cid uid text date analysis hf]

/-- C10 witness: `C10_ledger_invariant` applied to the empty ledger:
the invariant holds after inserting a record and after an (absent-id)
marking, and the created record is unprocessed with a null key. -/
theorem C10_ledger_invariant_witness :
    LedgerInv (add_message [] 1 2 3 "t" "d" none).1
    ∧ (add_message [] 1 2 3 "t" "d" none).1
        = [] ++ [⟨1, 2, 3, "t", "d", false, none, storedAnalysis none⟩] :=
  ⟨(C10_ledger_invariant [] 1 2 3 "t" "d" "K" none
      ⟨List.nodup_nil, by intro r hr; cases hr⟩).1,
   (C10_ledger_invariant [] 1 2 3 "t" "d" "K" none
      ⟨List.nodup_nil, by intro r hr; cases hr⟩).2.2.1 rfl⟩

/-- C3 counterexample: on the live path an empty-text message is not
skipped: the handler creates a ledger record for it and calls the
analysis gateway (the claim said neither ever happens for empty text). -/
theorem C3_cex_live_empty_text :
    ((db_find (handle_message (OllamaClient.mk "m") ⟨[], ⟨[], []⟩⟩ ⟨7, 0, 0, "", "d", false⟩
        (fun _ => (200, ""))).1.db 7).isSome = true)
    ∧ ((handle_message (OllamaClient.mk "m") ⟨[], ⟨[], []⟩⟩ ⟨7, 0, 0, "", "d", false⟩
        (fun _ => (200, ""))).2
      = [⟨"m", buildPrompt "", false⟩]) :=
  ⟨rfl, rfl⟩

/-- C3 (amended): empty-text messages are skipped on the backfill path
only: there the pipeline neither touches the state nor calls the
gateway; the live handler has no empty-text check and both stores the
message and calls the gateway (see the counterexample). -/
theorem C3_backfill_empty_skip (c : OllamaClient) (st : PipeState)
    (processed : List Nat) (m : BMsg) (oracle : OllamaRequest → Nat × String)
    (h : m.text = "") :
    process_backfill_message c st processed m oracle = (st, []) := by
  unfold process_backfill_message
  rw [if_pos h]

/-- C3 witness: `C3_backfill_empty_skip` on a concrete empty-text
message: the backfill step returns the state unchanged with no gateway
request. -/
theorem C3_backfill_empty_skip_witness :
    process_backfill_message (OllamaClient.mk "m") ⟨[], ⟨[], []⟩⟩ [] ⟨7, 0, 0, "", "d"⟩
      (fun _ => (200, "")) = (⟨[], ⟨[], []⟩⟩, []) :=
  C3_backfill_empty_skip (OllamaClient.mk "m") ⟨[], ⟨[], []⟩⟩ [] ⟨7, 0, 0, "", "d"⟩
    (fun _ => (200, "")) rfl

/-- C1 counterexample: a message whose ledger record is already marked
processed, redelivered through the live handler, is published again:
the handler performs one more document write, so processing the same
message twice produces two publications, not one. -/
theorem C1_cex_live_republishes_processed :
    ((db_find [(⟨1, 0, 0, "hello", "d", true, some "T", none⟩ : MsgRecord)] 1).map
        MsgRecord.is_processed = some true)
    ∧ ((handle_message (OllamaClient.mk "m")
          ⟨[⟨1, 0, 0, "hello", "d", true, some "T", none⟩], ⟨[("T", "old")], []⟩⟩
          ⟨1, 0, 0, "hello", "d", false⟩
          (fun _ => (200, "\x7b\"title\": \"T\"\x7d"))).1.wiki.log.length = 1) :=
  ⟨rfl, rfl⟩

/-- C1 (amended): only the backfill path deduplicates: a message whose
id is in the processed-id set fetched from the ledger is skipped there
with no state change and no gateway call; the live handler never
consults the processed flag and re-publishes a redelivered processed
message (see the counterexample). -/
theorem C1_backfill_skips_processed (c : OllamaClient) (st : PipeState) (m : BMsg)
    (oracle : OllamaRequest → Nat × String)
    (h : m.id ∈ get_processed_messages st.db) :
    process_backfill_message c st (get_processed_messages st.db) m oracle = (st, []) := by
  unfold process_backfill_message
  by_cases ht : m.text = ""
  · rw [if_pos ht]
  · rw [if_neg ht, if_pos h]

/-- C1 witness: `C1_backfill_skips_processed` on a ledger holding the
processed record of the arriving message. -/
theorem C1_backfill_skips_processed_witness :
    process_backfill_message (OllamaClient.mk "m")
      ⟨[⟨1, 0, 0, "hello", "d", true, some "T", none⟩], ⟨[("T", "old")], []⟩⟩
      (get_processed_messages [⟨1, 0, 0, "hello", "d", true, some "T", none⟩])
      ⟨1, 0, 0, "hello", "d"⟩ (fun _ => (200, "\x7b\"title\": \"T\"\x7d"))
    = (⟨[⟨1, 0, 0, "hello", "d", true, some "T", none⟩], ⟨[("T", "old")], []⟩⟩, []) :=
  C1_backfill_skips_processed (OllamaClient.mk "m")
    ⟨[⟨1, 0, 0, "hello", "d", true, some "T", none⟩], ⟨[("T", "old")], []⟩⟩
    ⟨1, 0, 0, "hello", "d"⟩ (fun _ => (200, "\x7b\"title\": \"T\"\x7d")) (by decide)

/-- Unfolding of one backfill step on a fresh message with a truthy
object analysis and a resolvable title: the page is edited, the mark
runs against the ledger as it was before the record exists, and only
then is the record inserted. -/
theorem process_backfill_message_publish (c : OllamaClient) (st : PipeState)
    (processed : List Nat) (m : BMsg) (oracle : OllamaRequest → Nat × String)
    (fields : List (String × Json)) (title : String)
    (ht : ¬ m.text = "") (hp : m.id ∉ processed)
    (ha : (c.analyze_text m.text oracle).2 = some (Json.obj fields))
    (hne : fields ≠ [])
    (htl : getTitleVal fields m.id = some title) :
    process_backfill_message c st processed m oracle
      = (⟨(add_message (mark_message_as_processed st.db m.id title).1 m.id m.chat_id
             m.sender_id m.text m.date (some (Json.obj fields))).1,
          (edit_page st.wiki title
            (buildContent title m.text m.date m.sender_id m.id) true).1⟩,
         (c.analyze_text m.text oracle).1) := by
  have htr : jsonTruthy (Json.obj fields) = true := by
    cases fields with
    | nil => exact absurd rfl hne
    | cons a t => rfl
  unfold process_backfill_message
  rw [if_neg ht, if_neg hp, ha]
  simp only [htr, htl, edit_page_snd, if_true, ite_true]

/-- C2: on the backfill path, for a message with no pre-existing
ledger record, `mark_message_as_processed` runs before `add_message`
creates the record, so the mark is a no-op on the absent record and
the record created afterwards is unprocessed even though the page was
written; on the next backfill pass the id is therefore not in the
processed set and the message is published a second time. -/
theorem C2_backfill_mark_before_add (c : OllamaClient) (st : PipeState)
    (processed : List Nat) (m : BMsg) (oracle : OllamaRequest → Nat × String)
    (fields : List (String × Json)) (title : String)
    (ht : ¬ m.text = "") (hp : m.id ∉ processed)
    (hf : db_find st.db m.id = none)
    (ha : (c.analyze_text m.text oracle).2 = some (Json.obj fields))
    (hne : fields ≠ [])
    (htl : getTitleVal fields m.id = some title) :
    ((db_find (process_backfill_message c st processed m oracle).1.db m.id).map
        MsgRecord.is_processed = some false)
    ∧ ((process_backfill_message c st processed m oracle).1.wiki.log.length
        = st.wiki.log.length + 1)
    ∧ ((process_backfill_message c
          (process_backfill_message c st processed m oracle).1
          (get_processed_messages
            (process_backfill_message c st processed m oracle).1.db)
          m oracle).1.wiki.log.length
        = st.wiki.log.length + 2) := by
  have hstep := process_backfill_message_publish c st processed m oracle fields title
    ht hp ha hne htl
  have hdb : (add_message (mark_message_as_processed st.db m.id title).1 m.id m.chat_id
      m.sender_id m.text m.date (some (Json.obj fields))).1
      = st.db ++ [⟨m.id, m.chat_id, m.sender_id, m.text, m.date, false, none,
          storedAnalysis (some (Json.obj fields))⟩] := by
    rw [mark_of_none title hf]
    exact congrArg Prod.fst
      (add_of_none m.chat_id m.sender_id m.text m.date (some (Json.obj fields)) hf)
  have hfind : db_find (st.db ++ [⟨m.id, m.chat_id, m.sender_id, m.text, m.date, false,
      none, storedAnalysis (some (Json.obj fields))⟩]) m.id
      = some ⟨m.id, m.chat_id, m.sender_id, m.text, m.date, false, none,
          storedAnalysis (some (Json.obj fields))⟩ := by
    rw [db_find_append_of_none _ hf]
    unfold db_find
    rw [List.find?_cons]
    rw [decide_eq_true (show
      (⟨m.id, m.chat_id, m.sender_id, m.text, m.date, false, none,
        storedAnalysis (some (Json.obj fields))⟩ : MsgRecord).message_id = m.id from rfl)]
  have hp' : m.id ∉ get_processed_messages (st.db ++ [⟨m.id, m.chat_id, m.sender_id,
      m.text, m.date, false, none, storedAnalysis (some (Json.obj fields))⟩]) := by
    rw [get_processed_append]
    intro hmem
    rcases List.mem_append.mp hmem with h1 | h2
    · exact not_mem_processed_of_find_none hf h1
    · cases h2
  refine ⟨?_, ?_, ?_⟩
  · rw [hstep]
    show (db_find (add_message (mark_message_as_processed st.db m.id title).1 m.id
      m.chat_id m.sender_id m.text m.date (some (Json.obj fields))).1 m.id).map
        MsgRecord.is_processed = some false
    rw [hdb, hfind]
    rfl
  · rw [hstep]
    exact edit_page_log_length st.wiki title
      (buildContent title m.text m.date m.sender_id m.id) true
  · rw [hstep]
    have hstep2 := process_backfill_message_publish c
      ⟨(add_message (mark_message_as_processed st.db m.id title).1 m.id m.chat_id
          m.sender_id m.text m.date (some (Json.obj fields))).1,
        (edit_page st.wiki title
          (buildContent title m.text m.date m.sender_id m.id) true).1⟩
      (get_processed_messages
        (add_message (mark_message_as_processed st.db m.id title).1 m.id m.chat_id
          m.sender_id m.text m.date (some (Json.obj fields))).1)
      m oracle fields title ht (by rw [hdb]; exact hp') ha hne htl
    rw [hstep2]
    show (edit_page (edit_page st.wiki title
        (buildContent title m.text m.date m.sender_id m.id) true).1 title
        (buildContent title m.text m.date m.sender_id m.id) true).1.log.length
      = st.wiki.log.length + 2
    rw [edit_page_log_length, edit_page_log_length]

/-- C2 witness: `C2_backfill_mark_before_add` on a fresh state and a
concrete message whose analysis succeeds: after the first backfill
step the record exists unprocessed and the page was written once;
after the second step the page has been written twice. -/
theorem C2_backfill_mark_before_add_witness :
    ((db_find (process_backfill_message (OllamaClient.mk "m") ⟨[], ⟨[], []⟩⟩ []
          ⟨1, 0, 0, "hi", "d"⟩ (fun _ => (200, "\x7b\"summary\": \"s\"\x7d"))).1.db 1).map
        MsgRecord.is_processed = some false)
    ∧ ((process_backfill_message (OllamaClient.mk "m") ⟨[], ⟨[], []⟩⟩ []
          ⟨1, 0, 0, "hi", "d"⟩ (fun _ => (200, "\x7b\"summary\": \"s\"\x7d"))).1.wiki.log.length
        = (⟨[], ⟨[], []⟩⟩ : PipeState).wiki.log.length + 1)
    ∧ ((process_backfill_message (OllamaClient.mk "m")
          (process_backfill_message (OllamaClient.mk "m") ⟨[], ⟨[], []⟩⟩ []
            ⟨1, 0, 0, "hi", "d"⟩ (fun _ => (200, "\x7b\"summary\": \"s\"\x7d"))).1
          (get_processed_messages
            (process_backfill_message (OllamaClient.mk "m") ⟨[], ⟨[], []⟩⟩ []
              ⟨1, 0, 0, "hi", "d"⟩ (fun _ => (200, "\x7b\"summary\": \"s\"\x7d"))).1.db)
          ⟨1, 0, 0, "hi", "d"⟩
          (fun _ => (200, "\x7b\"summary\": \"s\"\x7d"))).1.wiki.log.length
        = (⟨[], ⟨[], []⟩⟩ : PipeState).wiki.log.length + 2) :=
  C2_backfill_mark_before_add (OllamaClient.mk "m") ⟨[], ⟨[], []⟩⟩ []
    ⟨1, 0, 0, "hi", "d"⟩ (fun _ => (200, "\x7b\"summary\": \"s\"\x7d"))
    [("summary", Json.str "s")] "Сообщение_1"
    (by decide) (by decide) rfl rfl (by simp) rfl

/-- A conversation of 250 messages, ids 250 down to 1, newest first. -/
def conv250 : List BMsg :=
  (List.range 250).map (fun i => ⟨250 - i, 0, 0, "t", "d"⟩)

/-- A transport oracle whose analysis service is down (status 404), so
the pagination trace is exercised without ledger or wiki effects. -/
def oracle_fail : OllamaRequest → Nat × String := fun _ => (404, "")

/-- C8: one non-empty fetched page — even one shorter than the limit —
always leads to a further request with the cursor moved to the id of
the page's last (oldest) message, and the loop stops exactly on a page
with zero messages; on a 250-message conversation with page size 100
the loop fetches pages of 100, 100, 50 and 0 messages (three requests
return messages, a fourth returns none and stops the loop) and the
messages visited are exactly the 250 distinct ids, each once. -/
theorem C8_backfill_pagination :
    (∀ (c : OllamaClient) (oracle : OllamaRequest → Nat × String) (fuel : Nat)
        (conv : List BMsg) (st : PipeState) (off : Nat),
      conv_get_messages conv 100 off = [] →
      backfill_loop c oracle (fuel + 1) conv st off = (st, [[]]))
    ∧ (∀ (c : OllamaClient) (oracle : OllamaRequest → Nat × String) (fuel : Nat)
        (conv : List BMsg) (st : PipeState) (off : Nat),
      conv_get_messages conv 100 off ≠ [] →
      (backfill_loop c oracle (fuel + 1) conv st off).2
        = (conv_get_messages conv 100 off).map BMsg.id ::
          (backfill_loop c oracle fuel conv
            (backfill_page c st (conv_get_messages conv 100 off) oracle)
            (lastId (conv_get_messages conv 100 off))).2)
    ∧ ((backfill_loop (OllamaClient.mk "m") oracle_fail 10 conv250 ⟨[], ⟨[], []⟩⟩ 0).2.map
          List.length = [100, 100, 50, 0])
    ∧ ((backfill_loop (OllamaClient.mk "m") oracle_fail 10 conv250
          ⟨[], ⟨[], []⟩⟩ 0).2.flatten
        = conv250.map BMsg.id)
    ∧ (conv250.map BMsg.id).Nodup := by
  refine ⟨?_, ?_, by decide, by decide, by decide⟩
  · intro c oracle fuel conv st off h
    unfold backfill_loop
    rw [if_pos h]
  · intro c oracle fuel conv st off h
    conv_lhs => rw [backfill_loop]
    rw [if_neg h]

/-- C8 witness: `C8_backfill_pagination` instantiated concretely: the
loop stops on the empty conversation, and on the 250-message
conversation the first (full) page is followed by a further request at
the moved cursor. -/
theorem C8_backfill_pagination_witness :
    (backfill_loop (OllamaClient.mk "m") oracle_fail 1 [] ⟨[], ⟨[], []⟩⟩ 0
      = (⟨[], ⟨[], []⟩⟩, [[]]))
    ∧ ((backfill_loop (OllamaClient.mk "m") oracle_fail 10 conv250 ⟨[], ⟨[], []⟩⟩ 0).2
        = (conv_get_messages conv250 100 0).map BMsg.id ::
          (backfill_loop (OllamaClient.mk "m") oracle_fail 9 conv250
            (backfill_page (OllamaClient.mk "m") ⟨[], ⟨[], []⟩⟩
              (conv_get_messages conv250 100 0) oracle_fail)
            (lastId (conv_get_messages conv250 100 0))).2) :=
  ⟨C8_backfill_pagination.1 (OllamaClient.mk "m") oracle_fail 0 [] ⟨[], ⟨[], []⟩⟩ 0 rfl,
   C8_backfill_pagination.2.1 (OllamaClient.mk "m") oracle_fail 9 conv250
     ⟨[], ⟨[], []⟩⟩ 0 (by decide)⟩

end DBTeleBot
